import Mathlib

/-!
Shallow embedding of the token & signing-key lifecycle subsystem of
github.com/shammianand/go-auth (internal/auth/jwt.go, the JWKS refresh job,
the auth service Logout, and the login handler), together with proofs of
the specification claims about it.

Modelling conventions:
* An RSA keypair is represented by a single `Nat` identity: `generateKey`
  stores the same identity in `privateKey` and `publicKey`, and signature
  verification checks that the token's `sigKey` equals the resolved public
  key (RS256 signing is deterministic, so a token is determined by its
  header, claims and signing key).
* The shared Redis cache is a record holding the distinct key families the
  code uses: `auth:keyset`, `auth:jwks`, `auth:token:<uid>` (sessions) and
  `access_token:<uid>`.  Entries carry the TTL (in seconds) they were
  written with.  Every cache round-trip an operation performs is recorded,
  in order, in a `List CacheOp` trace.
* Times are Unix seconds (`Nat`).  `config.TokenExpiry = 100` (seconds).
* Fallible Go paths return `Except Err`; a `Bool` parameter stands for the
  success of a cache write whose failure the claim under study concerns.
-/

deriving instance DecidableEq for Except

namespace GoAuth

/-- Embeds `config.TokenExpiry` (seconds), used as `time.Second * TokenExpiry`. -/
def tokenExpiry : Nat := 100

/-- TTL of the extra `access_token:<uid>` entry in `handleLogin`:
`24*60*time.Minute`, in seconds. -/
def accessTokenTTL : Nat := 24 * 60 * 60

/-- Signing algorithm declared in a token header. -/
inductive SigAlg
  | RS256
  | HS256
deriving DecidableEq, Repr

/-- Embeds `auth.Key`: an RSA keypair with its identifier and creation time. -/
structure Key where
  privateKey : Nat
  publicKey : Nat
  kid : String
  createdAt : Nat
deriving DecidableEq, Repr

/-- JWT claims produced by `CreateJWT`. -/
structure Claims where
  iss : String
  sub : String
  exp : Nat
  iat : Nat
deriving DecidableEq, Repr

/-- A structurally well-formed JWT: header (`alg`, `kid`), claims, and the
identity of the key that produced the signature. -/
structure Token where
  alg : SigAlg
  kid : Option String
  claims : Claims
  sigKey : Nat
deriving DecidableEq, Repr

/-- A presented bearer credential: either unparseable or a JWT. -/
inductive TokenString
  | malformed
  | tok (t : Token)
deriving DecidableEq, Repr

/-- The shared Redis cache, split by the key families the code uses. -/
structure Cache where
  keyset : Option (List (String × Key))
  jwks : Option (List (String × Nat))
  sessions : List (String × Token × Nat)
  accessTokens : List (String × Token × Nat)
deriving DecidableEq, Repr

/-- One round-trip to the shared cache. -/
inductive CacheOp
  | getKeySet
  | setKeySet
  | setJwks
  | getToken (uid : String)
  | setToken (uid : String)
  | delToken (uid : String)
  | setAccessToken (uid : String)
deriving DecidableEq, Repr

/-- Failure modes of the embedded operations. -/
inductive Err
  | keyStoreUnavailable
  | malformed
  | unexpectedAlg
  | kidMissing
  | unknownKey
  | badSignature
  | expired
  | usedBeforeIssued
  | sessionNotFound
  | sessionMismatch
  | noKeyAvailable
  | nilLatestKey
  | sessionWriteFailed
deriving DecidableEq, Repr

/-- Go map / Redis lookup on an association list. -/
def mapGet {α : Type} : List (String × α) → String → Option α
  | [], _ => none
  | p :: rest, k => if p.1 = k then some p.2 else mapGet rest k

/-- Redis `SET`: overwrite any prior entry for the key. -/
def setA {α : Type} (m : List (String × α)) (k : String) (v : α) : List (String × α) :=
  (k, v) :: m.filter fun p => decide (p.1 ≠ k)

/-- Redis `DEL`: remove the entry for the key (absent key: no-op). -/
def delA {α : Type} (m : List (String × α)) (k : String) : List (String × α) :=
  m.filter fun p => decide (p.1 ≠ k)

/-- Decimal value of a digit string; left inverse of `Nat.repr` on its
image, used to reason about `kid` uniqueness. -/
def decDigitsVal (l : List Char) : Nat :=
  l.foldl (fun a c => a * 10 + (c.toNat - 48)) 0

/-- Embeds `auth.generateKey`: fresh RSA pair, `kid` = `fmt.Sprintf("key-%d", time.Now().Unix())`,
`CreatedAt = time.Now()`.  The Unix second and the fresh keypair identity are
passed in as parameters (they come from the clock and the entropy source). -/
def generateKey (nowUnix rsaPair : Nat) : Key :=
  { privateKey := rsaPair
    publicKey := rsaPair
    kid := "key-" ++ Nat.repr nowUnix
    createdAt := nowUnix }

/-- Embeds `auth.updateJWKSet`: publish the public halves (kid, publicKey) of every
key in the map to the `auth:jwks` cache entry. -/
def updateJWKSet (keys : List (String × Key)) (c : Cache) : Cache × List CacheOp :=
  ({ c with jwks := some (keys.map fun p => (p.2.kid, p.2.publicKey)) }, [CacheOp.setJwks])

/-- Embeds `auth.loadOrGenerateKeys`: if a parseable keyset is stored, succeed with
no change; otherwise generate one key, store the singleton keyset, and
publish the JWKS. -/
def loadOrGenerateKeys (nowUnix rsaPair : Nat) (c : Cache) :
    Except Err Cache × List CacheOp :=
  match c.keyset with
  | some _ => (Except.ok c, [CacheOp.getKeySet])
  | none =>
    let key := generateKey nowUnix rsaPair
    let keysMap := [(key.kid, key)]
    let c1 : Cache := { c with keyset := some keysMap }
    let pub := updateJWKSet keysMap c1
    (Except.ok pub.1, CacheOp.getKeySet :: CacheOp.setKeySet :: pub.2)

/-- Embeds `auth.InitializeKeys`, which is exactly `loadOrGenerateKeys`. -/
def InitializeKeys (nowUnix rsaPair : Nat) (c : Cache) :
    Except Err Cache × List CacheOp :=
  loadOrGenerateKeys nowUnix rsaPair c

/-- Embeds `cmd.refreshJWKSKeys` (the periodic "rotation" job body): it just calls
`auth.InitializeKeys` again. -/
def refreshJWKSKeys (nowUnix rsaPair : Nat) (c : Cache) :
    Except Err Cache × List CacheOp :=
  InitializeKeys nowUnix rsaPair c

/-- The `CreateJWT` loop selecting the key with the strictly latest
`CreatedAt` (Go: `latestKey *Key = nil; if k.CreatedAt.After(latestTime)`). -/
def pickLatestAux : Option Key → Nat → List (String × Key) → Option Key
  | acc, _, [] => acc
  | acc, t, p :: rest =>
    if t < p.2.createdAt then pickLatestAux (some p.2) p.2.createdAt rest
    else pickLatestAux acc t rest

/-- Key selection over the whole keyset, starting from `nil` / zero time. -/
def pickLatest (ks : List (String × Key)) : Option Key :=
  pickLatestAux none 0 ks

/-- Embeds `auth.CreateJWT`: fetch keys, pick the most recent, build claims
`{iss, sub, exp = now+TTL, iat = now}`, sign with the key's private half and
record the token in the session registry (`auth:token:<uid>`) with TTL equal
to the token TTL.  `writeOk` is the success of that registry write; on
failure the token is not returned.  A `nil` `latestKey` (all keys at the
zero time) would dereference nil in Go and is reported as `nilLatestKey`. -/
def CreateJWT (userID : String) (now : Nat) (writeOk : Bool) (c : Cache) :
    Except Err (Token × Cache) × List CacheOp :=
  match c.keyset with
  | none => (Except.error Err.keyStoreUnavailable, [CacheOp.getKeySet])
  | some ks =>
    if ks.isEmpty then (Except.error Err.noKeyAvailable, [CacheOp.getKeySet])
    else
      match pickLatest ks with
      | none => (Except.error Err.nilLatestKey, [CacheOp.getKeySet])
      | some latestKey =>
        let claims : Claims :=
          { iss := "github.com/shammianand/go-auth"
            sub := userID
            exp := now + tokenExpiry
            iat := now }
        let token : Token :=
          { alg := SigAlg.RS256
            kid := some latestKey.kid
            claims := claims
            sigKey := latestKey.privateKey }
        if writeOk then
          (Except.ok (token, { c with sessions := setA c.sessions userID (token, tokenExpiry) }),
            [CacheOp.getKeySet, CacheOp.setToken userID])
        else
          (Except.error Err.sessionWriteFailed, [CacheOp.getKeySet])

/-- Result of `auth.validateToken`: fetch the keyset, then `jwt.Parse` with
the keyfunc (RSA method check, `kid` extraction and resolution), signature
verification, and the jwt/v5 claim validation (`exp`, then `iat`). -/
def validateTokenR (ts : TokenString) (now : Nat) (c : Cache) : Except Err Token :=
  match c.keyset with
  | none => Except.error Err.keyStoreUnavailable
  | some ks =>
    match ts with
    | TokenString.malformed => Except.error Err.malformed
    | TokenString.tok t =>
      if t.alg ≠ SigAlg.RS256 then Except.error Err.unexpectedAlg
      else
        match t.kid with
        | none => Except.error Err.kidMissing
        | some kid =>
          match mapGet ks kid with
          | none => Except.error Err.unknownKey
          | some key =>
            if t.sigKey ≠ key.publicKey then Except.error Err.badSignature
            else if t.claims.exp ≤ now then Except.error Err.expired
            else if now < t.claims.iat then Except.error Err.usedBeforeIssued
            else Except.ok t

/-- Embeds `auth.validateToken` with its cache trace: it performs exactly one cache
round-trip, the keyset fetch, before anything else. -/
def validateToken (ts : TokenString) (now : Nat) (c : Cache) :
    Except Err Token × List CacheOp :=
  (validateTokenR ts now c, [CacheOp.getKeySet])

/-- Embeds `auth.WithJWTAuth` (the validator, steps 1-6): `validateToken`, extract
`sub`, then the session-registry read and comparison with the presented
token string. -/
def WithJWTAuth (ts : TokenString) (now : Nat) (c : Cache) :
    Except Err String × List CacheOp :=
  match validateToken ts now c with
  | (Except.error e, tr) => (Except.error e, tr)
  | (Except.ok t, tr) =>
    match mapGet c.sessions t.claims.sub with
    | none => (Except.error Err.sessionNotFound, tr ++ [CacheOp.getToken t.claims.sub])
    | some st =>
      if ts = TokenString.tok st.1 then (Except.ok t.claims.sub, tr ++ [CacheOp.getToken t.claims.sub])
      else (Except.error Err.sessionMismatch, tr ++ [CacheOp.getToken t.claims.sub])

/-- Embeds the `auth.RefreshToken` handler body: validate the old token, check it is
the registered one, call `CreateJWT` (which writes the new session entry),
and then `Del` the session key for the same principal. -/
def RefreshToken (ts : TokenString) (now : Nat) (c : Cache) :
    Except Err Token × Cache × List CacheOp :=
  match validateToken ts now c with
  | (Except.error e, tr) => (Except.error e, c, tr)
  | (Except.ok t, tr) =>
    let userID := t.claims.sub
    match mapGet c.sessions userID with
    | none => (Except.error Err.sessionNotFound, c, tr ++ [CacheOp.getToken userID])
    | some st =>
      if ts ≠ TokenString.tok st.1 then
        (Except.error Err.sessionMismatch, c, tr ++ [CacheOp.getToken userID])
      else
        match CreateJWT userID now true c with
        | (Except.error e, tr2) => (Except.error e, c, tr ++ [CacheOp.getToken userID] ++ tr2)
        | (Except.ok tc, tr2) =>
          let c2 : Cache := { tc.2 with sessions := delA tc.2.sessions userID }
          (Except.ok tc.1, c2, tr ++ [CacheOp.getToken userID] ++ tr2 ++ [CacheOp.delToken userID])

/-- Embeds `AuthService.Logout`: delete the `auth:token:<uid>` entry.  Redis `DEL`
of an absent key is not an error, so the call always succeeds. -/
def Logout (userID : String) (c : Cache) : Except Err Cache × List CacheOp :=
  (Except.ok { c with sessions := delA c.sessions userID }, [CacheOp.delToken userID])

/-- Embeds `Handler.handleLogin` (after credential checks): `CreateJWT`, then the
extra `access_token:<uid>` write with a 24-hour TTL whose failure is only
logged — the login still returns the token. -/
def handleLogin (userID : String) (now : Nat) (sessionWriteOk accessWriteOk : Bool) (c : Cache) :
    Except Err (Token × Cache) × List CacheOp :=
  match CreateJWT userID now sessionWriteOk c with
  | (Except.error e, tr) => (Except.error e, tr)
  | (Except.ok tc, tr) =>
    if accessWriteOk then
      (Except.ok (tc.1, { tc.2 with accessTokens := setA tc.2.accessTokens userID (tc.1, accessTokenTTL) }),
        tr ++ [CacheOp.setAccessToken userID])
    else
      (Except.ok (tc.1, tc.2), tr)

/-- Well-formedness of a stored keyset, as established by the generation
code: non-empty, map keys are the `kid`s and are distinct, each keypair's
halves match, and creation times are after the zero time. -/
def WFKeySet (ks : List (String × Key)) : Prop :=
  ks ≠ [] ∧ (ks.map Prod.fst).Nodup ∧
    ∀ p ∈ ks, p.2.kid = p.1 ∧ p.2.publicKey = p.2.privateKey ∧ 0 < p.2.createdAt

instance (ks : List (String × Key)) : Decidable (WFKeySet ks) := by
  unfold WFKeySet; infer_instance

/-- A concrete key generated at Unix second 5 with keypair identity 1. -/
def demoKey : Key := generateKey 5 1

/-- A concrete initialized cache used for witnesses and counterexamples. -/
def demoCache : Cache :=
  { keyset := some [(demoKey.kid, demoKey)]
    jwks := some [(demoKey.kid, demoKey.publicKey)]
    sessions := []
    accessTokens := [] }

example : demoKey.kid = "key-5" := by decide
example : WFKeySet [(demoKey.kid, demoKey)] := by decide

/-- The token `CreateJWT "u1" 10 true demoCache` produces. -/
def demoTok1 : Token :=
  { alg := SigAlg.RS256
    kid := some "key-5"
    claims := { iss := "github.com/shammianand/go-auth", sub := "u1", exp := 110, iat := 10 }
    sigKey := 1 }

/-- State of `demoCache` after `demoTok1` has been issued and registered for `u1`. -/
def demoCache1 : Cache :=
  { demoCache with sessions := [("u1", (demoTok1, tokenExpiry))] }

/-- The token `CreateJWT "u1" 20 true _` produces (the refreshed token). -/
def demoTok2 : Token :=
  { alg := SigAlg.RS256
    kid := some "key-5"
    claims := { iss := "github.com/shammianand/go-auth", sub := "u1", exp := 120, iat := 20 }
    sigKey := 1 }

/-- A cache whose stored keyset is present but empty (`{}` in Redis). -/
def emptyKeysetCache : Cache :=
  { keyset := some [], jwks := none, sessions := [], accessTokens := [] }

/-- The token `CreateJWT "u2" 25 true demoCache` produces. -/
def demoTok3 : Token :=
  { alg := SigAlg.RS256
    kid := some "key-5"
    claims := { iss := "github.com/shammianand/go-auth", sub := "u2", exp := 125, iat := 25 }
    sigKey := 1 }

/-- State of `demoCache` after `demoTok3` has been issued and registered for `u2`. -/
def demoCache3 : Cache :=
  { demoCache with sessions := [("u2", (demoTok3, tokenExpiry))] }

/-! ### Association-list lemmas -/

theorem mapGet_setA_self {α : Type} (m : List (String × α)) (k : String) (v : α) :
    mapGet (setA m k v) k = some v := by
  simp [setA, mapGet]

theorem mapGet_delA_self {α : Type} (m : List (String × α)) (k : String) :
    mapGet (delA m k) k = none := by
  induction m with
  | nil => rfl
  | cons p rest ih =>
    by_cases h : p.1 = k
    · simpa [delA, List.filter_cons, h] using ih
    · simpa [delA, List.filter_cons, h, mapGet] using ih

theorem delA_idem {α : Type} (m : List (String × α)) (k : String) :
    delA (delA m k) k = delA m k := by
  simp [delA, List.filter_filter]

theorem delA_of_mapGet_none {α : Type} (m : List (String × α)) (k : String)
    (h : mapGet m k = none) : delA m k = m := by
  induction m with
  | nil => rfl
  | cons p rest ih =>
    by_cases hp : p.1 = k
    · simp [mapGet, hp] at h
    · simp only [mapGet, if_neg hp] at h
      simp [delA, List.filter_cons, hp] at ih ⊢
      exact ih h

theorem mapGet_of_mem_nodup {α : Type} (m : List (String × α)) (k : String) (v : α)
    (hmem : (k, v) ∈ m) (hnd : (m.map Prod.fst).Nodup) : mapGet m k = some v := by
  induction m with
  | nil => cases hmem
  | cons p rest ih =>
    simp only [List.map_cons, List.nodup_cons] at hnd
    rcases List.mem_cons.mp hmem with heq | hmem'
    · subst heq; simp [mapGet]
    · have hne : p.1 ≠ k := by
        intro hk
        exact hnd.1 (hk ▸ List.mem_map.mpr ⟨(k, v), hmem', rfl⟩)
      simpa [mapGet, hne] using ih hmem' hnd.2

/-! ### `pickLatest` lemmas -/

theorem pickLatestAux_isSome (ks : List (String × Key)) :
    ∀ (acc : Option Key) (t : Nat), acc.isSome → (pickLatestAux acc t ks).isSome := by
  induction ks with
  | nil => intro acc t h; exact h
  | cons p rest ih =>
    intro acc t h
    unfold pickLatestAux
    by_cases hc : t < p.2.createdAt
    · simpa [hc] using ih (some p.2) p.2.createdAt rfl
    · simpa [hc] using ih acc t h

theorem pickLatest_isSome_of_WF (ks : List (String × Key)) (h : WFKeySet ks) :
    ∃ k, pickLatest ks = some k := by
  obtain ⟨hne, _, hall⟩ := h
  match ks, hne with
  | p :: rest, _ =>
    have hpos : 0 < p.2.createdAt := (hall p (List.mem_cons_self p rest)).2.2
    have : (pickLatestAux (some p.2) p.2.createdAt rest).isSome :=
      pickLatestAux_isSome rest (some p.2) p.2.createdAt rfl
    rw [show pickLatest (p :: rest) = pickLatestAux (some p.2) p.2.createdAt rest by
      simp [pickLatest, pickLatestAux, hpos]]
    exact Option.isSome_iff_exists.mp this

theorem pickLatestAux_mem (ks : List (String × Key)) :
    ∀ (acc : Option Key) (t : Nat) (k : Key), pickLatestAux acc t ks = some k →
      (∃ s, (s, k) ∈ ks) ∨ acc = some k := by
  induction ks with
  | nil => intro acc t k h; exact Or.inr h
  | cons p rest ih =>
    intro acc t k h
    unfold pickLatestAux at h
    by_cases hc : t < p.2.createdAt
    · rw [if_pos hc] at h
      rcases ih (some p.2) p.2.createdAt k h with ⟨s, hs⟩ | heq
      · exact Or.inl ⟨s, List.mem_cons_of_mem p hs⟩
      · refine Or.inl ⟨p.1, ?_⟩
        have : p.2 = k := Option.some.inj heq
        rw [← this]
        exact List.mem_cons_self p rest
    · rw [if_neg hc] at h
      rcases ih acc t k h with ⟨s, hs⟩ | heq
      · exact Or.inl ⟨s, List.mem_cons_of_mem p hs⟩
      · exact Or.inr heq

theorem pickLatest_mem (ks : List (String × Key)) (k : Key)
    (h : pickLatest ks = some k) : ∃ s, (s, k) ∈ ks := by
  rcases pickLatestAux_mem ks none 0 k h with hm | habs
  · exact hm
  · cases habs

/-- The key chosen by `CreateJWT` resolves to itself through the stored
keyset: `keys[latestKey.Kid] = latestKey`. -/
theorem mapGet_pickLatest (ks : List (String × Key)) (k : Key)
    (hwf : WFKeySet ks) (h : pickLatest ks = some k) :
    mapGet ks k.kid = some k := by
  obtain ⟨s, hmem⟩ := pickLatest_mem ks k h
  have hk : k.kid = s := (hwf.2.2 (s, k) hmem).1
  rw [hk]
  exact mapGet_of_mem_nodup ks s k hmem hwf.2.1

/-! ### Claim theorems -/

/-- C2: for every principal ID `uid`, validating the token returned by
`issue(uid)` (`CreateJWT` followed by the `WithJWTAuth` validator) succeeds
and returns `uid`, provided validation runs before the token's expiry
(`now' < now + tokenExpiry`, with `now ≤ now'`) and before any revocation
or re-issuance for `uid` (the validation runs directly on the post-issuance
cache). -/
theorem validate_after_issue_roundtrip (uid : String) (now now' : Nat) (c : Cache)
    (ks : List (String × Key)) (hks : c.keyset = some ks) (hwf : WFKeySet ks)
    (hle : now ≤ now') (hlt : now' < now + tokenExpiry) :
    ∃ t c1, (CreateJWT uid now true c).1 = Except.ok (t, c1) ∧
      (WithJWTAuth (TokenString.tok t) now' c1).1 = Except.ok uid ∧
      t.claims.sub = uid := by
  obtain ⟨lk, hpl⟩ := pickLatest_isSome_of_WF ks hwf
  have hkey : mapGet ks lk.kid = some lk := mapGet_pickLatest ks lk hwf hpl
  obtain ⟨s, hmem⟩ := pickLatest_mem ks lk hpl
  have hpair : lk.publicKey = lk.privateKey := (hwf.2.2 (s, lk) hmem).2.1
  have hnotempty : ks.isEmpty = false := by
    cases ks with
    | nil => exact absurd rfl hwf.1
    | cons p rest => rfl
  let cl : Claims :=
    { iss := "github.com/shammianand/go-auth", sub := uid, exp := now + tokenExpiry, iat := now }
  let tk : Token := { alg := SigAlg.RS256, kid := some lk.kid, claims := cl, sigKey := lk.privateKey }
  refine ⟨tk, { c with sessions := setA c.sessions uid (tk, tokenExpiry) }, ?_, ?_, rfl⟩
  · simp [CreateJWT, hks, hnotempty, hpl, tk, cl]
  · have hexp : ¬ (now + tokenExpiry ≤ now') := by omega
    have hiat : ¬ (now' < now) := by omega
    simp [WithJWTAuth, validateToken, validateTokenR, hks, hkey, hpair, hexp, hiat,
      mapGet_setA_self, tk, cl]

/-- C2 witness: a concrete issuance at time 10 validated at time 50. -/
theorem validate_after_issue_roundtrip_witness :
    ∃ t c1, (CreateJWT "u1" 10 true demoCache).1 = Except.ok (t, c1) ∧
      (WithJWTAuth (TokenString.tok t) 50 c1).1 = Except.ok "u1" ∧
      t.claims.sub = "u1" :=
  validate_after_issue_roundtrip "u1" 10 50 demoCache [(demoKey.kid, demoKey)]
    rfl (by decide) (by decide) (by decide)

/-- C4 counterexample: RS256 signing is deterministic, so calling
`issue("u1")` a second time at the same Unix second (same `iat`/`exp`, same
key) returns the very same token string; the session entry is overwritten
with an identical value and validating the first token still SUCCEEDS —
it does not fail with `SessionMismatch` as the claim states for every
second call. -/
theorem second_issue_same_second_first_token_still_valid :
    (CreateJWT "u1" 10 true demoCache).1 = Except.ok (demoTok1, demoCache1) ∧
    (CreateJWT "u1" 10 true demoCache1).1 = Except.ok (demoTok1, demoCache1) ∧
    (WithJWTAuth (TokenString.tok demoTok1) 20 demoCache1).1 = Except.ok "u1" := by
  refine ⟨?_, ?_, ?_⟩ <;> decide

/-- C4 (amended): after `issue(uid)` is called a second time at a
*different* Unix second (so that the two signed tokens differ), validating
the first token fails with `SessionMismatch`, because the session-registry
write overwrites the single entry keyed by `uid` with the second token. -/
theorem second_issue_invalidates_first (uid : String) (n1 n2 now' : Nat) (c : Cache)
    (ks : List (String × Key)) (hks : c.keyset = some ks) (hwf : WFKeySet ks)
    (hne : n1 ≠ n2) (h1 : n1 ≤ now') (h2 : now' < n1 + tokenExpiry) :
    ∃ t1 c1 t2 c2,
      (CreateJWT uid n1 true c).1 = Except.ok (t1, c1) ∧
      (CreateJWT uid n2 true c1).1 = Except.ok (t2, c2) ∧
      t1 ≠ t2 ∧
      (WithJWTAuth (TokenString.tok t1) now' c2).1 = Except.error Err.sessionMismatch := by
  obtain ⟨lk, hpl⟩ := pickLatest_isSome_of_WF ks hwf
  have hkey : mapGet ks lk.kid = some lk := mapGet_pickLatest ks lk hwf hpl
  obtain ⟨s, hmem⟩ := pickLatest_mem ks lk hpl
  have hpair : lk.publicKey = lk.privateKey := (hwf.2.2 (s, lk) hmem).2.1
  have hnotempty : ks.isEmpty = false := by
    cases ks with
    | nil => exact absurd rfl hwf.1
    | cons p rest => rfl
  let cl1 : Claims :=
    { iss := "github.com/shammianand/go-auth", sub := uid, exp := n1 + tokenExpiry, iat := n1 }
  let tk1 : Token := { alg := SigAlg.RS256, kid := some lk.kid, claims := cl1, sigKey := lk.privateKey }
  let cl2 : Claims :=
    { iss := "github.com/shammianand/go-auth", sub := uid, exp := n2 + tokenExpiry, iat := n2 }
  let tk2 : Token := { alg := SigAlg.RS256, kid := some lk.kid, claims := cl2, sigKey := lk.privateKey }
  let c1 : Cache := { c with sessions := setA c.sessions uid (tk1, tokenExpiry) }
  let c2 : Cache := { c1 with sessions := setA c1.sessions uid (tk2, tokenExpiry) }
  have htokne : tk1 ≠ tk2 := by
    intro h
    exact hne (congrArg (fun t => t.claims.iat) h)
  refine ⟨tk1, c1, tk2, c2, ?_, ?_, htokne, ?_⟩
  · simp [CreateJWT, hks, hnotempty, hpl, tk1, cl1, c1]
  · simp [CreateJWT, hks, hnotempty, hpl, tk2, cl2, c1, c2]
  · have hexp : ¬ (n1 + tokenExpiry ≤ now') := by omega
    have hiat : ¬ (now' < n1) := by omega
    have hts : TokenString.tok tk1 ≠ TokenString.tok tk2 := by
      intro h
      exact htokne (by injection h)
    simp [WithJWTAuth, validateToken, validateTokenR, hks, hkey, hpair, hexp, hiat,
      mapGet_setA_self, tk1, cl1, c1, c2, hts]

/-- C4 (amended) witness: issues at seconds 10 and 11, validation of the
first token at second 50. -/
theorem second_issue_invalidates_first_witness :
    ∃ t1 c1 t2 c2,
      (CreateJWT "u1" 10 true demoCache).1 = Except.ok (t1, c1) ∧
      (CreateJWT "u1" 11 true c1).1 = Except.ok (t2, c2) ∧
      t1 ≠ t2 ∧
      (WithJWTAuth (TokenString.tok t1) 50 c2).1 = Except.error Err.sessionMismatch :=
  second_issue_invalidates_first "u1" 10 11 50 demoCache [(demoKey.kid, demoKey)]
    rfl (by decide) (by decide) (by decide) (by decide)

/-- C1: evaluation of the refresh handler at a concrete valid token.
`RefreshToken` calls `CreateJWT` — which registers the new token T2 under
`auth:token:u1` — and only afterwards deletes `auth:token:u1`, erasing the
registration of the token it just issued.  The handler returns T2 with the
session registry left empty, so `validate(T2)` fails with `SessionNotFound`
(and `validate(T1)` also fails with `SessionNotFound`, not
`SessionMismatch`), contradicting the claim (and spec §4.3 / §8) that after
refresh the new token validates. -/
theorem refresh_deletes_new_registration :
    (RefreshToken (TokenString.tok demoTok1) 20 demoCache1).1 = Except.ok demoTok2 ∧
    (RefreshToken (TokenString.tok demoTok1) 20 demoCache1).2.1 = demoCache ∧
    mapGet demoCache.sessions "u1" = none ∧
    (WithJWTAuth (TokenString.tok demoTok2) 21 demoCache).1 = Except.error Err.sessionNotFound ∧
    (WithJWTAuth (TokenString.tok demoTok1) 21 demoCache).1 = Except.error Err.sessionNotFound := by
  refine ⟨?_, ?_, ?_, ?_, ?_⟩ <;> decide

/-- C3: evaluation of the periodic key-refresh job at an initialized state.
`refreshJWKSKeys` merely re-runs `InitializeKeys`, which is a no-op when a
keyset is already stored: the state (keyset and published JWKS included) is
returned unchanged after a single cache read, no new `SigningKey` is
generated or added, and subsequent `issue()` calls keep using the old key —
contradicting the claim that rotation adds a new key.  (The job body's own
TODO comment lists exactly the missing add-new-key behaviour.) -/
theorem rotation_job_is_noop :
    refreshJWKSKeys 20 9 demoCache = (Except.ok demoCache, [CacheOp.getKeySet]) ∧
    demoCache.keyset = some [(demoKey.kid, demoKey)] ∧
    (CreateJWT "u2" 25 true demoCache).1 = Except.ok (demoTok3, demoCache3) ∧
    demoTok3.kid = some demoKey.kid := by
  refine ⟨?_, ?_, ?_, ?_⟩ <;> decide

/-- C6 counterexample: `loadOrGenerateKeys` only checks that the stored
keyset JSON parses, never that it is non-empty.  On a cache whose stored
keyset is the empty map it succeeds and leaves the KeySet empty, refuting
"after every successful call the KeySet is non-empty". -/
theorem init_accepts_empty_keyset :
    (loadOrGenerateKeys 7 3 emptyKeysetCache).1 = Except.ok emptyKeysetCache ∧
    emptyKeysetCache.keyset = some [] := by
  refine ⟨?_, ?_⟩ <;> decide

/-- C6 (amended): `initialize()` is idempotent — after one successful call,
a second call is a no-op returning the same state — and a successful call
from a state with *no* stored keyset establishes a non-empty KeySet; a
pre-existing stored keyset (even an empty one) is accepted unchanged. -/
theorem init_idempotent (n1 p1 n2 p2 : Nat) (c : Cache) :
    ∃ c1, (InitializeKeys n1 p1 c).1 = Except.ok c1 ∧
      (InitializeKeys n2 p2 c1).1 = Except.ok c1 ∧
      (c.keyset = none → ∃ ks, c1.keyset = some ks ∧ ks ≠ []) ∧
      (∀ ks, c.keyset = some ks → c1 = c) := by
  cases hk : c.keyset with
  | some m =>
    refine ⟨c, ?_, ?_, ?_, ?_⟩
    · simp [InitializeKeys, loadOrGenerateKeys, hk]
    · simp [InitializeKeys, loadOrGenerateKeys, hk]
    · intro h; simp at h
    · intro _ _; rfl
  | none =>
    refine ⟨{ c with
        keyset := some [((generateKey n1 p1).kid, generateKey n1 p1)],
        jwks := some [((generateKey n1 p1).kid, (generateKey n1 p1).publicKey)] }, ?_, ?_, ?_, ?_⟩
    · simp [InitializeKeys, loadOrGenerateKeys, hk, updateJWKSet]
    · simp [InitializeKeys, loadOrGenerateKeys, updateJWKSet]
    · intro _
      exact ⟨[((generateKey n1 p1).kid, generateKey n1 p1)], rfl, by simp⟩
    · intro ks hks; simp at hks

/-- C6 (amended) witness: a fresh (keyset-absent) cache then a second call. -/
theorem init_idempotent_witness :
    ∃ c1, (InitializeKeys 7 3 { keyset := none, jwks := none, sessions := [], accessTokens := [] }).1 = Except.ok c1 ∧
      (InitializeKeys 8 4 c1).1 = Except.ok c1 ∧
      ((Cache.mk none none [] []).keyset = none → ∃ ks, c1.keyset = some ks ∧ ks ≠ []) ∧
      (∀ ks, (Cache.mk none none [] []).keyset = some ks → c1 = Cache.mk none none [] []) :=
  init_idempotent 7 3 8 4 (Cache.mk none none [] [])

/-- C7: issuance is all-or-nothing.  If the session-registry write fails
after the token is signed, `CreateJWT` returns `SessionWriteFailed` — the
signed token is never returned to the caller — and the only cache
round-trip that happened is the keyset read. -/
theorem issue_allornothing_on_write_failure (uid : String) (now : Nat) (c : Cache)
    (ks : List (String × Key)) (hks : c.keyset = some ks) (hwf : WFKeySet ks) :
    CreateJWT uid now false c = (Except.error Err.sessionWriteFailed, [CacheOp.getKeySet]) := by
  obtain ⟨lk, hpl⟩ := pickLatest_isSome_of_WF ks hwf
  have hnotempty : ks.isEmpty = false := by
    cases ks with
    | nil => exact absurd rfl hwf.1
    | cons p rest => rfl
  simp [CreateJWT, hks, hnotempty, hpl]

/-- C7 witness: the concrete cache with the registry write failing. -/
theorem issue_allornothing_on_write_failure_witness :
    CreateJWT "u1" 10 false demoCache = (Except.error Err.sessionWriteFailed, [CacheOp.getKeySet]) :=
  issue_allornothing_on_write_failure "u1" 10 demoCache [(demoKey.kid, demoKey)] rfl (by decide)

/-- C8: after `revoke(uid)` (`Logout`), no session entry remains for `uid`,
so validating any token previously issued to `uid` (any token whose `sub`
is `uid` and which still passes the structural/signature/expiry checks)
fails with `SessionNotFound`; and revoke is idempotent — revoking again,
with no session entry present, succeeds and changes nothing. -/
theorem logout_revokes_and_is_idempotent (uid : String) (c : Cache) (t : Token) (now' : Nat)
    (hsub : t.claims.sub = uid) :
    ∃ c', (Logout uid c).1 = Except.ok c' ∧
      mapGet c'.sessions uid = none ∧
      (validateTokenR (TokenString.tok t) now' c' = Except.ok t →
        (WithJWTAuth (TokenString.tok t) now' c').1 = Except.error Err.sessionNotFound) ∧
      (Logout uid c').1 = Except.ok c' := by
  refine ⟨{ c with sessions := delA c.sessions uid }, rfl, ?_, ?_, ?_⟩
  · exact mapGet_delA_self c.sessions uid
  · intro hv
    simp [WithJWTAuth, validateToken, hv, hsub, mapGet_delA_self]
  · simp [Logout, delA_idem]

/-- C8 witness: revoking `u1` on the concrete post-issuance cache, then
validating the previously issued token at time 20. -/
theorem logout_revokes_and_is_idempotent_witness :
    ∃ c', (Logout "u1" demoCache1).1 = Except.ok c' ∧
      mapGet c'.sessions "u1" = none ∧
      (validateTokenR (TokenString.tok demoTok1) 20 c' = Except.ok demoTok1 →
        (WithJWTAuth (TokenString.tok demoTok1) 20 c').1 = Except.error Err.sessionNotFound) ∧
      (Logout "u1" c').1 = Except.ok c' :=
  logout_revokes_and_is_idempotent "u1" demoCache1 demoTok1 20 rfl

/-- C5 counterexample: the validator's very first step is `getKeys`, a
round-trip to the shared cache, performed before any parsing.  A malformed
token is rejected with a non-empty cache trace — `[getKeySet]` — refuting
"a malformed or forged token is rejected without the validator touching the
shared cache" and "the session-registry read ... is the only cache
access". -/
theorem malformed_token_touches_cache :
    (validateToken TokenString.malformed 10 demoCache).1 = Except.error Err.malformed ∧
    (validateToken TokenString.malformed 10 demoCache).2 = [CacheOp.getKeySet] ∧
    [CacheOp.getKeySet] ≠ ([] : List CacheOp) := by
  refine ⟨?_, ?_, ?_⟩ <;> decide

/-- C5 (amended): on every verification attempt the validator performs the
KeySet fetch from the shared cache FIRST (before parsing), then runs the
structural/signature/expiry checks with no further cache access; the
session-registry read happens only if all those checks pass, and is then
the last cache access.  So malformed or forged tokens are rejected after
exactly one cache access (the KeySet fetch) and without the
session-registry read. -/
theorem validator_cache_access_order (ts : TokenString) (now : Nat) (c : Cache) :
    (validateToken ts now c).2 = [CacheOp.getKeySet] ∧
    (WithJWTAuth ts now c).2 = CacheOp.getKeySet ::
      (match (validateToken ts now c).1 with
       | Except.ok t => [CacheOp.getToken t.claims.sub]
       | Except.error _ => []) := by
  refine ⟨rfl, ?_⟩
  cases hv : validateTokenR ts now c with
  | error e => simp [WithJWTAuth, validateToken, hv]
  | ok t =>
    cases hg : mapGet c.sessions t.claims.sub with
    | none => simp [WithJWTAuth, validateToken, hv, hg]
    | some st =>
      simp only [WithJWTAuth, validateToken, hv, hg]
      split <;> simp

/-! ### Decimal representation lemmas (for `kid` uniqueness) -/

theorem toDigitsCore_append (b : Nat) :
    ∀ (f n : Nat) (l : List Char),
      Nat.toDigitsCore b f n l = Nat.toDigitsCore b f n [] ++ l := by
  intro f
  induction f with
  | zero => intro n l; simp [Nat.toDigitsCore]
  | succ f ih =>
    intro n l
    by_cases h : n / b = 0
    · simp [Nat.toDigitsCore, h]
    · simp only [Nat.toDigitsCore, h, if_neg]
      rw [ih (n / b) (Nat.digitChar (n % b) :: l), ih (n / b) [Nat.digitChar (n % b)]]
      simp

theorem digitChar_sub48 (d : Nat) (h : d < 10) : (Nat.digitChar d).toNat - 48 = d := by
  interval_cases d <;> rfl

theorem toDigitsCore_val :
    ∀ (f n : Nat), n < 10 ^ f → decDigitsVal (Nat.toDigitsCore 10 f n []) = n := by
  intro f
  induction f with
  | zero =>
    intro n h
    have : n = 0 := by simpa using h
    subst this
    rfl
  | succ f ih =>
    intro n h
    by_cases hd : n / 10 = 0
    · have hn : n < 10 := by omega
      simp [Nat.toDigitsCore, hd, decDigitsVal, digitChar_sub48 (n % 10) (by omega)]
      omega
    · have hlt : n / 10 < 10 ^ f := by
        have hp : (10 : Nat) ^ (f + 1) = 10 ^ f * 10 := pow_succ 10 f
        exact (Nat.div_lt_iff_lt_mul (by norm_num)).mpr (by rw [← hp]; exact h)
      calc decDigitsVal (Nat.toDigitsCore 10 (f + 1) n [])
          = decDigitsVal (Nat.toDigitsCore 10 f (n / 10) [Nat.digitChar (n % 10)]) := by
            simp [Nat.toDigitsCore, hd]
        _ = decDigitsVal (Nat.toDigitsCore 10 f (n / 10) [] ++ [Nat.digitChar (n % 10)]) := by
            rw [← toDigitsCore_append]
        _ = decDigitsVal (Nat.toDigitsCore 10 f (n / 10) []) * 10
              + ((Nat.digitChar (n % 10)).toNat - 48) := by
            simp [decDigitsVal, List.foldl_append]
        _ = n / 10 * 10 + n % 10 := by
            rw [ih (n / 10) hlt, digitChar_sub48 (n % 10) (by omega)]
        _ = n := by omega

theorem decDigitsVal_repr (n : Nat) : decDigitsVal (Nat.repr n).data = n := by
  have h1 : n < 10 ^ n := Nat.lt_pow_self (by norm_num) n
  have h2 : (10 : Nat) ^ n ≤ 10 ^ (n + 1) := Nat.pow_le_pow_right (by norm_num) (Nat.le_succ n)
  show decDigitsVal (Nat.toDigitsCore 10 (n + 1) n []) = n
  exact toDigitsCore_val (n + 1) n (by omega)

/-- C9 counterexample: two distinct key-generation invocations within the
same Unix second (same clock reading, different RSA keypairs) return
distinct `SigningKey`s carrying the SAME `kid`, refuting "no two
SigningKeys ... ever share an identifier, including generations that occur
within the same second". -/
theorem kid_collision_same_second :
    generateKey 5 1 ≠ generateKey 5 2 ∧ (generateKey 5 1).kid = (generateKey 5 2).kid := by
  refine ⟨?_, ?_⟩ <;> decide

/-- C9 (amended): the `kid` is `"key-"` followed by the decimal Unix second
of generation, so two generated keys share a `kid` exactly when they were
generated at the same Unix second; `kid`s of generations at distinct
seconds are always distinct, but same-second generations collide. -/
theorem kid_unique_iff_distinct_seconds (t1 p1 t2 p2 : Nat) :
    (generateKey t1 p1).kid = (generateKey t2 p2).kid ↔ t1 = t2 := by
  constructor
  · intro h
    have hd : "key-".data ++ (Nat.repr t1).data = "key-".data ++ (Nat.repr t2).data :=
      congrArg String.data h
    have hr : (Nat.repr t1).data = (Nat.repr t2).data := List.append_cancel_left hd
    have hv := congrArg decDigitsVal hr
    rw [decDigitsVal_repr, decDigitsVal_repr] at hv
    exact hv
  · intro h
    rw [h]
    rfl

/-! ### Frame lemmas: the `access_token:<uid>` entries are never consulted -/

theorem validateTokenR_acc_frame (ts : TokenString) (now : Nat) (c : Cache)
    (a : List (String × Token × Nat)) :
    validateTokenR ts now { c with accessTokens := a } = validateTokenR ts now c := rfl

theorem WithJWTAuth_acc_frame (ts : TokenString) (now : Nat) (c : Cache)
    (a : List (String × Token × Nat)) :
    WithJWTAuth ts now { c with accessTokens := a } = WithJWTAuth ts now c := rfl

theorem CreateJWT_acc_frame (uid : String) (now : Nat) (w : Bool) (c : Cache)
    (a : List (String × Token × Nat)) :
    CreateJWT uid now w { c with accessTokens := a } =
      ((CreateJWT uid now w c).1.map (fun tc => (tc.1, { tc.2 with accessTokens := a })),
        (CreateJWT uid now w c).2) := by
  cases hk : c.keyset with
  | none => simp [CreateJWT, hk, Except.map]
  | some ks =>
    by_cases he : ks.isEmpty
    · simp [CreateJWT, hk, he, Except.map]
    · cases hp : pickLatest ks with
      | none => simp [CreateJWT, hk, he, hp, Except.map]
      | some lk => cases w <;> simp [CreateJWT, hk, he, hp, Except.map]

theorem Logout_acc_frame (u : String) (c : Cache) (a : List (String × Token × Nat)) :
    Logout u { c with accessTokens := a } =
      ((Logout u c).1.map (fun x => { x with accessTokens := a }), (Logout u c).2) := rfl

theorem RefreshToken_acc_frame (ts : TokenString) (now : Nat) (c : Cache)
    (a : List (String × Token × Nat)) :
    RefreshToken ts now { c with accessTokens := a } =
      ((RefreshToken ts now c).1,
        { (RefreshToken ts now c).2.1 with accessTokens := a },
        (RefreshToken ts now c).2.2) := by
  have hvr := validateTokenR_acc_frame ts now c a
  cases hv : validateTokenR ts now c with
  | error e => simp [RefreshToken, validateToken, hvr, hv]
  | ok t =>
    cases hg : mapGet c.sessions t.claims.sub with
    | none => simp [RefreshToken, validateToken, hvr, hv, hg]
    | some st =>
      by_cases hts : ts = TokenString.tok st.1
      · subst hts
        have hframe := CreateJWT_acc_frame t.claims.sub now true c a
        rcases hc : CreateJWT t.claims.sub now true c with ⟨res, tr2⟩
        rw [hc] at hframe
        cases res with
        | error e =>
          simp [RefreshToken, validateToken, hvr, hv, hg, hframe, hc, Except.map]
        | ok tc =>
          simp [RefreshToken, validateToken, hvr, hv, hg, hframe, hc, Except.map]
      · simp [RefreshToken, validateToken, hvr, hv, hg, hts]

/-- C10: on a successful login, besides the session entry
`auth:token:<uid>` written by `CreateJWT` with TTL equal to the token TTL,
the handler writes the same token under `access_token:<uid>` with a fixed
24-hour TTL; a failure of this extra write leaves the login successful with
the token still returned and no access entry written; and the extra entries
are never consulted by validation, refresh, or logout (their results are
invariant under replacing the `access_token` table). -/
theorem login_writes_extra_access_token (uid : String) (now : Nat) (c : Cache)
    (ks : List (String × Key)) (hks : c.keyset = some ks) (hwf : WFKeySet ks) :
    ∃ t c1,
      (CreateJWT uid now true c).1 = Except.ok (t, c1) ∧
      (handleLogin uid now true true c).1 =
        Except.ok (t, { c1 with accessTokens := setA c1.accessTokens uid (t, accessTokenTTL) }) ∧
      mapGet c1.sessions uid = some (t, tokenExpiry) ∧
      t.claims.exp = t.claims.iat + tokenExpiry ∧
      accessTokenTTL = 24 * 60 * 60 ∧
      (handleLogin uid now true false c).1 = Except.ok (t, c1) ∧
      c1.accessTokens = c.accessTokens ∧
      (∀ ts now2 a, WithJWTAuth ts now2 { c1 with accessTokens := a } = WithJWTAuth ts now2 c1) ∧
      (∀ ts now2 a, RefreshToken ts now2 { c1 with accessTokens := a } =
        ((RefreshToken ts now2 c1).1, { (RefreshToken ts now2 c1).2.1 with accessTokens := a },
          (RefreshToken ts now2 c1).2.2)) ∧
      (∀ u a, Logout u { c1 with accessTokens := a } =
        ((Logout u c1).1.map (fun x => { x with accessTokens := a }), (Logout u c1).2)) := by
  obtain ⟨lk, hpl⟩ := pickLatest_isSome_of_WF ks hwf
  have hnotempty : ks.isEmpty = false := by
    cases ks with
    | nil => exact absurd rfl hwf.1
    | cons p rest => rfl
  let cl : Claims :=
    { iss := "github.com/shammianand/go-auth", sub := uid, exp := now + tokenExpiry, iat := now }
  let tk : Token := { alg := SigAlg.RS256, kid := some lk.kid, claims := cl, sigKey := lk.privateKey }
  refine ⟨tk, { c with sessions := setA c.sessions uid (tk, tokenExpiry) },
    ?_, ?_, ?_, ?_, rfl, ?_, rfl, ?_, ?_, ?_⟩
  · simp [CreateJWT, hks, hnotempty, hpl, tk, cl]
  · simp [handleLogin, CreateJWT, hks, hnotempty, hpl, tk, cl]
  · exact mapGet_setA_self c.sessions uid (tk, tokenExpiry)
  · rfl
  · simp [handleLogin, CreateJWT, hks, hnotempty, hpl, tk, cl]
  · intro ts now2 a
    exact WithJWTAuth_acc_frame ts now2 _ a
  · intro ts now2 a
    exact RefreshToken_acc_frame ts now2 _ a
  · intro u a
    exact Logout_acc_frame u _ a

/-- C10 witness: the concrete login of `u1` at time 10 on `demoCache`. -/
theorem login_writes_extra_access_token_witness :
    ∃ t c1,
      (CreateJWT "u1" 10 true demoCache).1 = Except.ok (t, c1) ∧
      (handleLogin "u1" 10 true true demoCache).1 =
        Except.ok (t, { c1 with accessTokens := setA c1.accessTokens "u1" (t, accessTokenTTL) }) ∧
      mapGet c1.sessions "u1" = some (t, tokenExpiry) ∧
      t.claims.exp = t.claims.iat + tokenExpiry ∧
      accessTokenTTL = 24 * 60 * 60 ∧
      (handleLogin "u1" 10 true false demoCache).1 = Except.ok (t, c1) ∧
      c1.accessTokens = demoCache.accessTokens ∧
      (∀ ts now2 a, WithJWTAuth ts now2 { c1 with accessTokens := a } = WithJWTAuth ts now2 c1) ∧
      (∀ ts now2 a, RefreshToken ts now2 { c1 with accessTokens := a } =
        ((RefreshToken ts now2 c1).1, { (RefreshToken ts now2 c1).2.1 with accessTokens := a },
          (RefreshToken ts now2 c1).2.2)) ∧
      (∀ u a, Logout u { c1 with accessTokens := a } =
        ((Logout u c1).1.map (fun x => { x with accessTokens := a }), (Logout u c1).2)) :=
  login_writes_extra_access_token "u1" 10 demoCache [(demoKey.kid, demoKey)] rfl (by decide)

end GoAuth
